import Mathlib

/-
  Verification development for the structuredchat session/matchmaking core.

  The definitions below are a shallow embedding of the matchmaking server
  (src/server/server.js), the client segment state machine
  (src/src/App.tsx), and the speaking-rights table
  (src/src/components/ChatScreen.tsx).  JS `Map`s are modelled as
  association lists with set-on-existing-key-updates-in-place semantics,
  randomness (Math.random based shuffles) is modelled by explicit
  shuffle-outcome parameters, and timestamps are integers.
-/

namespace StructuredChat

/-! ### 1:1 matchmaking data model (src/server/server.js) -/

/-- Chat mode strings `'video' | 'audio' | 'text' | 'any'`. -/
inductive Mode
  | video
  | audio
  | text
  | any
deriving DecidableEq, Repr

/-- An entry of a waiting queue:
`{ socketId, requestedMode, name, joinedAt }` (server.js line 583). -/
structure WQEntry where
  socketId : String
  requestedMode : Mode
  name : String
  joinedAt : Int
deriving DecidableEq, Repr

/-- The four waiting queues (`waitingQueues` object in server.js). -/
structure Queues where
  video : List WQEntry
  audio : List WQEntry
  text : List WQEntry
  any : List WQEntry
deriving DecidableEq, Repr

/-- Queue lookup `waitingQueues[mode]`. -/
def Queues.get (qs : Queues) : Mode → List WQEntry
  | Mode.video => qs.video
  | Mode.audio => qs.audio
  | Mode.text => qs.text
  | Mode.any => qs.any

/-- Replace the queue for a given mode. -/
def Queues.set (qs : Queues) : Mode → List WQEntry → Queues
  | Mode.video, l => { qs with video := l }
  | Mode.audio, l => { qs with audio := l }
  | Mode.text, l => { qs with text := l }
  | Mode.any, l => { qs with any := l }

/-- `waitingQueues[mode].push(entry)`. -/
def pushQueue (qs : Queues) (mode : Mode) (e : WQEntry) : Queues :=
  Queues.set qs mode (Queues.get qs mode ++ [e])

/-- The `for (let i = 0; ...) if (pred) { queue.splice(i, 1); return entry }`
pattern: find the first entry satisfying `p`, remove it, and return it
together with the remaining list. -/
def extractFirst (p : WQEntry → Bool) : List WQEntry → Option (WQEntry × List WQEntry)
  | [] => none
  | x :: xs =>
    if p x then some (x, xs)
    else
      match extractFirst p xs with
      | none => none
      | some (y, ys) => some (y, x :: ys)

/-- Result of a successful queue search: the removed waiting user together
with the `matchedMode` tag attached by `findMatch`. -/
structure MatchFound where
  entry : WQEntry
  matchedMode : Mode
deriving DecidableEq, Repr

/-- `findMatch(socketId, mode)` (server.js lines 271-325).  For an `'any'`
requester, search the `video`, `audio`, `text` queues in that priority
order, then the `'any'` queue; for a concrete-mode requester, search the
own-mode queue (accepting entries whose requested mode is the same mode or
`'any'`), then the `'any'` queue.  The matched entry is spliced out of its
queue; the function returns the match and the updated queues. -/
def findMatch (socketId : String) (mode : Mode) (qs : Queues) :
    Option (MatchFound × Queues) :=
  match mode with
  | Mode.any =>
    match extractFirst (fun u => decide (u.socketId ≠ socketId)) qs.video with
    | some (u, rest) => some (⟨u, Mode.video⟩, { qs with video := rest })
    | none =>
      match extractFirst (fun u => decide (u.socketId ≠ socketId)) qs.audio with
      | some (u, rest) => some (⟨u, Mode.audio⟩, { qs with audio := rest })
      | none =>
        match extractFirst (fun u => decide (u.socketId ≠ socketId)) qs.text with
        | some (u, rest) => some (⟨u, Mode.text⟩, { qs with text := rest })
        | none =>
          match extractFirst (fun u => decide (u.socketId ≠ socketId)) qs.any with
          | some (u, rest) => some (⟨u, Mode.any⟩, { qs with any := rest })
          | none => none
  | m =>
    match extractFirst
        (fun u => decide (u.socketId ≠ socketId ∧
          (u.requestedMode = m ∨ u.requestedMode = Mode.any)))
        (Queues.get qs m) with
    | some (u, rest) => some (⟨u, m⟩, Queues.set qs m rest)
    | none =>
      match extractFirst (fun u => decide (u.socketId ≠ socketId)) qs.any with
      | some (u, rest) => some (⟨u, m⟩, { qs with any := rest })
      | none => none

/-- `activeRooms` values: `{ users: [socketId1, socketId2], mode, createdAt }`. -/
structure RoomInfo where
  users : List String
  mode : Mode
  createdAt : Int
deriving DecidableEq, Repr

/-- `userSessions` values:
`{ roomId, userId, mode, originalMode, name }` (server.js lines 564-565). -/
structure Session where
  roomId : String
  userId : String
  mode : Mode
  originalMode : Mode
  name : String
deriving DecidableEq, Repr

/-- Association-list model of a JS `Map`: lookup of the entry for a key. -/
def alookup {α : Type} : List (String × α) → String → Option α
  | [], _ => none
  | (k, v) :: rest, key => if k = key then some v else alookup rest key

/-- Association-list model of `Map.set`: update in place if the key exists,
otherwise append. -/
def aset {α : Type} : List (String × α) → String → α → List (String × α)
  | [], key, v => [(key, v)]
  | (k, w) :: rest, key, v =>
    if k = key then (k, v) :: rest else (k, w) :: aset rest key v

/-- Association-list model of `Map.delete`. -/
def aerase {α : Type} : List (String × α) → String → List (String × α)
  | [], _ => []
  | (k, w) :: rest, key => if k = key then rest else (k, w) :: aerase rest key

/-- The in-memory session store of the 1:1 variant: the four waiting
queues, `activeRooms` and `userSessions`. -/
structure Store where
  queues : Queues
  activeRooms : List (String × RoomInfo)
  userSessions : List (String × Session)
deriving DecidableEq, Repr

/-- The store at server start: all queues and maps empty. -/
def emptyStore : Store := ⟨⟨[], [], [], []⟩, [], []⟩

/-- What the `findMatch` socket handler reports back to the caller. -/
inductive FMOutcome
  | matched (roomId : String) (peerId : String) (chatMode : Mode)
  | waiting
deriving DecidableEq, Repr

/-- The `socket.on('findMatch')` handler (server.js lines 534-590).
`newRoomId` stands for the freshly generated random room id and `now` for
`Date.now()`.  On a match: `actualMode` is the matched mode when the
requester asked for `'any'` and the requested mode otherwise; a room is
created with the caller first in `users`; the caller's session gets
`userId: 'user1'` and the queued peer's session `userId: 'user2'`.  On no
match: the caller is appended to its mode's queue and told `'waiting'`.
There is no already-in-a-room check anywhere in the handler. -/
def handleFindMatch (sid : String) (mode : Mode) (nm : String) (now : Int)
    (newRoomId : String) (st : Store) : Store × FMOutcome :=
  match findMatch sid mode st.queues with
  | some (mf, qs) =>
    let actualMode := if mode = Mode.any then mf.matchedMode else mode
    let room : RoomInfo := ⟨[sid, mf.entry.socketId], actualMode, now⟩
    let sessions1 := aset st.userSessions sid
      ⟨newRoomId, "user1", actualMode, mode, nm⟩
    let sessions2 := aset sessions1 mf.entry.socketId
      ⟨newRoomId, "user2", actualMode, mf.entry.requestedMode, mf.entry.name⟩
    (⟨qs, aset st.activeRooms newRoomId room, sessions2⟩,
      FMOutcome.matched newRoomId mf.entry.socketId actualMode)
  | none =>
    (⟨pushQueue st.queues mode ⟨sid, mode, nm, now⟩,
      st.activeRooms, st.userSessions⟩, FMOutcome.waiting)

/-- The queue-removal loop shared by `leaveQueue` and `disconnect`
(server.js lines 593-604 and 730-737): iterate the queues in declaration
order `video, audio, text, any`, remove the first entry of the current
socket, and `break`. -/
def removeFromQueues (sid : String) (qs : Queues) : Queues :=
  match extractFirst (fun u => decide (u.socketId = sid)) qs.video with
  | some (_, rest) => { qs with video := rest }
  | none =>
    match extractFirst (fun u => decide (u.socketId = sid)) qs.audio with
    | some (_, rest) => { qs with audio := rest }
    | none =>
      match extractFirst (fun u => decide (u.socketId = sid)) qs.text with
      | some (_, rest) => { qs with text := rest }
      | none =>
        match extractFirst (fun u => decide (u.socketId = sid)) qs.any with
        | some (_, rest) => { qs with any := rest }
        | none => qs

/-- The `socket.on('leaveQueue')` handler. -/
def handleLeaveQueue (sid : String) (st : Store) : Store :=
  { st with queues := removeFromQueues sid st.queues }

/-- The 1:1 part of the `socket.on('disconnect')` handler (server.js lines
728-759): purge any queue entry of the socket, then if the socket has a
session with a live room, delete the room and both members' sessions. -/
def handleDisconnect (sid : String) (st : Store) : Store :=
  let qs := removeFromQueues sid st.queues
  match alookup st.userSessions sid with
  | some session =>
    match alookup st.activeRooms session.roomId with
    | some room =>
      ⟨qs, aerase st.activeRooms session.roomId,
        room.users.foldl (fun acc uid => aerase acc uid) st.userSessions⟩
    | none => ⟨qs, st.activeRooms, st.userSessions⟩
  | none => ⟨qs, st.activeRooms, st.userSessions⟩

/-- The operations of the matchmaking store that the queue-membership
invariant quantifies over. -/
inductive MMOp
  | findMatchOp (sid : String) (mode : Mode) (nm : String) (now : Int) (newRoomId : String)
  | leaveQueueOp (sid : String)
  | disconnectOp (sid : String)

/-- Apply one matchmaking operation to the store. -/
def applyMMOp (op : MMOp) (st : Store) : Store :=
  match op with
  | MMOp.findMatchOp sid mode nm now rid => (handleFindMatch sid mode nm now rid st).1
  | MMOp.leaveQueueOp sid => handleLeaveQueue sid st
  | MMOp.disconnectOp sid => handleDisconnect sid st

/-- Apply a sequence of matchmaking operations, first to last. -/
def applyMMOps (ops : List MMOp) (st : Store) : Store :=
  ops.foldl (fun s op => applyMMOp op s) st

/-- Number of queue entries of a connection across all four queues. -/
def queueCount (sid : String) (qs : Queues) : Nat :=
  (qs.video.filter (fun u => decide (u.socketId = sid))).length +
  (qs.audio.filter (fun u => decide (u.socketId = sid))).length +
  (qs.text.filter (fun u => decide (u.socketId = sid))).length +
  (qs.any.filter (fun u => decide (u.socketId = sid))).length

/-- Executable test for membership in some active room. -/
def inActiveRoomB (sid : String) (st : Store) : Bool :=
  st.activeRooms.any (fun p => p.2.users.contains sid)

/-! ### Client segment state machine (src/src/App.tsx) -/

/-- The client-side segment/round/timer state of a 1:1 chat
(`currentSegment`, `round`, `timeRemaining` in App.tsx). -/
structure SegTimerState where
  currentSegment : Nat
  round : Nat
  timeRemaining : Int
deriving DecidableEq, Repr

/-- One firing of the segment interval timer (App.tsx lines 292-335):
decrement the remaining time; when it reaches zero, advance the segment
modulo 4, increment the round on the 3 to 0 wraparound, and reset the
timer to 60 seconds. -/
def timerTick (s : SegTimerState) : SegTimerState :=
  let newTime := s.timeRemaining - 1
  if newTime ≤ 0 then
    let nextSegment := (s.currentSegment + 1) % 4
    let isNewRound := s.currentSegment = 3 ∧ nextSegment = 0
    { currentSegment := nextSegment,
      round := if isNewRound then s.round + 1 else s.round,
      timeRemaining := 60 }
  else
    { s with timeRemaining := newTime }

/-- `handleSkip` (App.tsx lines 512-530): advance the segment modulo 4,
increment the round on the 3 to 0 wraparound, reset the timer to 60. -/
def handleSkip (s : SegTimerState) : SegTimerState :=
  let nextSegment := (s.currentSegment + 1) % 4
  let isNewRound := s.currentSegment = 3 ∧ nextSegment = 0
  let newRound := if isNewRound then s.round + 1 else s.round
  { currentSegment := nextSegment, round := newRound, timeRemaining := 60 }

/-- The `matchFound` client handler resets the chat state
(App.tsx lines 146-148): segment 0, round 1, 60 seconds remaining. -/
def onMatchFound (_s : SegTimerState) : SegTimerState :=
  { currentSegment := 0, round := 1, timeRemaining := 60 }

/-! ### Speaking rights (src/src/components/ChatScreen.tsx) -/

/-- One row of the `segments` table. -/
structure SegmentInfo where
  label : String
  canUser1Speak : Bool
  canUser2Speak : Bool
  canUser1Skip : Bool
deriving DecidableEq, Repr

/-- `segments[0]`: user1 speaks. -/
def segmentRow0 : SegmentInfo := ⟨"Segment 1 of 4", true, false, true⟩

/-- The `segments` array (ChatScreen.tsx lines 47-72). -/
def segments : List SegmentInfo :=
  [segmentRow0,
   ⟨"Segment 2 of 4", false, true, true⟩,
   ⟨"Segment 3 of 4", false, true, true⟩,
   ⟨"Segment 4 of 4", true, false, true⟩]

/-- `segments[currentSegment] || segments[0]` (ChatScreen.tsx line 91). -/
def segmentInfoFor (currentSegment : Nat) : SegmentInfo :=
  (segments.get? currentSegment).getD segmentRow0

/-- The two roles of a 1:1 room. -/
inductive Role
  | user1
  | user2
deriving DecidableEq, Repr

/-- `canISpeak` (ChatScreen.tsx lines 104-106): `false` while the user id
is unset, otherwise the `canUser1Speak`/`canUser2Speak` column of the
current segment's row. -/
def canISpeak (userId : Option Role) (currentSegment : Nat) : Bool :=
  match userId with
  | none => false
  | some r =>
    let info := segmentInfoFor currentSegment
    match r with
    | Role.user1 => info.canUser1Speak
    | Role.user2 => info.canUser2Speak

/-! ### Middle Debate variant (src/server/server.js lines 173-531, 688-726) -/

/-- Debate room phases `'lobby' | 'debate' | 'qna' | 'ended'`. -/
inductive DebatePhase
  | lobby
  | debate
  | qna
  | ended
deriving DecidableEq, Repr

/-- Active speaker: `'debater1' | 'debater2' | 'both'`. -/
inductive Speaker
  | debater1
  | debater2
  | both
deriving DecidableEq, Repr

/-- A claimed debater slot: `{ socketId, name }`. -/
structure DebaterSlot where
  socketId : String
  name : String
deriving DecidableEq, Repr

/-- A viewer record: `{ name, joinedAt }`. -/
structure ViewerInfo where
  name : String
  joinedAt : Int
deriving DecidableEq, Repr

/-- A `questionsByViewer` record: `{ name, questions }`. -/
structure QVEntry where
  name : String
  questions : List String
deriving DecidableEq, Repr

/-- The selected question:
`{ fromViewerId, fromViewerName, text }` (server.js line 509). -/
structure CurrentQuestion where
  fromViewerId : String
  fromViewerName : String
  text : String
deriving DecidableEq, Repr

/-- The state of a debate room (server.js lines 346-363).  `segmentsTotal`
is a JS number, modelled as a rational; the interval timer handle is
modelled as the flag `timer`. -/
structure DebateRoom where
  code : String
  createdAt : Int
  phase : DebatePhase
  segmentsTotal : ℚ
  segmentIndex : Nat
  speaker : Speaker
  segmentEndsAt : Option Int
  qnaEndsAt : Option Int
  debater1 : Option DebaterSlot
  debater2 : Option DebaterSlot
  viewers : List (String × ViewerInfo)
  questionsByViewer : List (String × QVEntry)
  currentQuestion : Option CurrentQuestion
  qnaOrder : List String
  qnaIndex : Nat
  timer : Bool
deriving DecidableEq, Repr

/-- The `segmentsTotal` payload of a `debate-create` request as seen
through `Number(...)`: a numeric value, or not a number (missing or
non-numeric input, i.e. `NaN`). -/
inductive JSNumInput
  | num (q : ℚ)
  | nonNumeric
deriving DecidableEq, Repr

/-- `Math.max(2, Math.min(12, Number(segmentsTotal) || 6))`
(server.js line 342): `NaN` and `0` are falsy, so missing, non-numeric and
zero inputs fall back to `6` before clamping into `[2, 12]`. -/
def toSafeSegments (x : JSNumInput) : ℚ :=
  let n : ℚ :=
    match x with
    | JSNumInput.nonNumeric => 6
    | JSNumInput.num q => if q = 0 then 6 else q
  max 2 (min 12 n)

/-- The `socket.on('debate-create')` handler (server.js lines 341-367):
build a fresh lobby room with clamped `segmentsTotal`.  `code` stands for
the generated room code and `now` for `Date.now()`. -/
def debateCreate (code : String) (now : Int) (segmentsTotal : JSNumInput) :
    DebateRoom :=
  { code := code
    createdAt := now
    phase := DebatePhase.lobby
    segmentsTotal := toSafeSegments segmentsTotal
    segmentIndex := 0
    speaker := Speaker.debater1
    segmentEndsAt := none
    qnaEndsAt := none
    debater1 := none
    debater2 := none
    viewers := []
    questionsByViewer := []
    currentQuestion := none
    qnaOrder := []
    qnaIndex := 0
    timer := false }

/-- `(name || '').toString().trim() || 'Viewer'` modelled on already
trimmed strings: empty falls back to `'Viewer'`. -/
def displayNameOf (nm : String) : String :=
  if nm = "" then "Viewer" else nm

/-- The `socket.on('debate-join')` handler on a found room (server.js
lines 369-412): a `'debater'` request claims slot 1, else slot 2, else
falls back to viewer; a viewer is recorded in `viewers` and, when absent,
in `questionsByViewer`.  Returns the updated room and the assigned role
string. -/
def debateJoin (sid nm roleReq : String) (now : Int) (room : DebateRoom) :
    DebateRoom × String :=
  let displayName := displayNameOf nm
  let claimed : DebateRoom × String :=
    if roleReq = "debater" then
      match room.debater1 with
      | none => ({ room with debater1 := some ⟨sid, displayName⟩ }, "debater1")
      | some _ =>
        match room.debater2 with
        | none => ({ room with debater2 := some ⟨sid, displayName⟩ }, "debater2")
        | some _ => (room, "viewer")
    else (room, "viewer")
  if claimed.2 = "viewer" then
    let r1 := { claimed.1 with viewers := aset claimed.1.viewers sid ⟨displayName, now⟩ }
    let r2 :=
      if (alookup r1.questionsByViewer sid).isSome then r1
      else { r1 with questionsByViewer := r1.questionsByViewer ++ [(sid, ⟨displayName, []⟩)] }
    (r2, claimed.2)
  else claimed

/-- `room.debater1?.socketId === socket.id || room.debater2?.socketId === socket.id`. -/
def isDebater (sid : String) (room : DebateRoom) : Bool :=
  (match room.debater1 with
   | some d => decide (d.socketId = sid)
   | none => false) ||
  (match room.debater2 with
   | some d => decide (d.socketId = sid)
   | none => false)

/-- The `socket.on('debate-start')` handler on a found room (server.js
lines 426-441): bail out unless the phase is `lobby` and both debater
slots are filled, then enter the `debate` phase at segment 0 with
`debater1` speaking, a 2 minute segment deadline, and the room interval
timer started.  The sender's identity is never inspected. -/
def debateStart (senderId : String) (now : Int) (room : DebateRoom) : DebateRoom :=
  if room.phase ≠ DebatePhase.lobby then room
  else if room.debater1 = none ∨ room.debater2 = none then room
  else
    { room with
      phase := DebatePhase.debate
      segmentIndex := 0
      speaker := Speaker.debater1
      segmentEndsAt := some (now + 120000)
      qnaEndsAt := none
      currentQuestion := none
      timer := true }

/-- The interval callback of `startDebateTimer` (server.js lines 226-268)
is two sequential `if`s; this is the first.  JS compares `now >= endsAt`
where a `null` deadline coerces to `0`, hence the `getD 0`.  In `debate`,
on segment timeout either advance the segment (alternating the speaker)
or transition to `qna` with a 10 minute deadline. -/
def debateTickSegment (now : Int) (room : DebateRoom) : DebateRoom :=
  if room.phase = DebatePhase.debate ∧ now ≥ (room.segmentEndsAt.getD 0) then
    if ((room.segmentIndex : ℚ) + 1) < room.segmentsTotal then
      { room with
        segmentIndex := room.segmentIndex + 1
        speaker := if room.speaker = Speaker.debater1 then Speaker.debater2 else Speaker.debater1
        segmentEndsAt := some (now + 120000) }
    else
      { room with
        phase := DebatePhase.qna
        speaker := Speaker.both
        qnaEndsAt := some (now + 600000)
        segmentEndsAt := none
        currentQuestion := none
        qnaOrder := []
        qnaIndex := 0 }
  else room

/-- The second `if` of the interval callback: `qna` timeout ends the room
and stops the timer. -/
def debateTickQna (now : Int) (room : DebateRoom) : DebateRoom :=
  if room.phase = DebatePhase.qna ∧ now ≥ (room.qnaEndsAt.getD 0) then
    { room with
      phase := DebatePhase.ended
      speaker := Speaker.both
      currentQuestion := none
      timer := false }
  else room

/-- The whole callback: the segment-deadline `if` followed by the
qna-deadline `if` on the updated room. -/
def debateTick (now : Int) (room : DebateRoom) : DebateRoom :=
  debateTickQna now (debateTickSegment now room)

/-- The `socket.on('debate-question')` handler on a found room (server.js
lines 458-472): ignore empty text and non-viewers, otherwise append the
question to the sender's `questionsByViewer` entry (creating it with the
sender's debate name when absent). -/
def debateQuestion (sid : String) (debateName : Option String) (txt : String)
    (room : DebateRoom) : DebateRoom :=
  if txt = "" then room
  else if (alookup room.viewers sid).isNone then room
  else
    let entry := (alookup room.questionsByViewer sid).getD
      ⟨debateName.getD "Viewer", []⟩
    let entry2 : QVEntry := ⟨debateName.getD entry.name, entry.questions ++ [txt]⟩
    { room with questionsByViewer := aset room.questionsByViewer sid entry2 }

/-- Viewers that currently hold at least one pending question, in
`questionsByViewer` iteration order (server.js lines 485-488). -/
def viewersWithQs (room : DebateRoom) : List String :=
  (room.questionsByViewer.filter (fun p => !p.2.questions.isEmpty)).map (fun p => p.1)

/-- Remove the first pending question of the given viewer
(`entry.questions.shift()`). -/
def popQuestion : List (String × QVEntry) → String → List (String × QVEntry)
  | [], _ => []
  | (k, e) :: rest, vid =>
    if k = vid then (k, ⟨e.name, e.questions.tail⟩) :: rest
    else (k, e) :: popQuestion rest vid

/-- The outcome of the `k`-th `shuffle(...)` call inside one handler run,
drawn from the explicit list of shuffle outcomes `shs` (the identity
permutation when the list is exhausted). -/
def shuffleOutcome (shs : List (List String)) (k : Nat) (l : List String) :
    List String :=
  (shs.get? k).getD l

/-- `entry.name || 'Viewer'`. -/
def nameOrViewer (s : String) : String :=
  if s = "" then "Viewer" else s

/-- The `while (attempts < 5)` loop of `debate-qna-next` (server.js lines
502-517): try the viewer at the cursor; on success pop their first
question, advance the cursor and publish the question; on failure
reshuffle the viewers-with-questions list and restart the cursor, up to 5
attempts. -/
def qnaLoop (shs : List (List String)) (vq : List String) (room : DebateRoom) :
    List String → Nat → Nat → Nat → DebateRoom
  | order, idx, _, 0 => { room with qnaOrder := order, qnaIndex := idx }
  | order, idx, shIdx, fuel + 1 =>
    match order.get? idx with
    | some vid =>
      match alookup room.questionsByViewer vid with
      | some e =>
        match e.questions with
        | q :: _ =>
          { room with
            qnaOrder := order
            qnaIndex := idx + 1
            questionsByViewer := popQuestion room.questionsByViewer vid
            currentQuestion := some ⟨vid, nameOrViewer e.name, q⟩ }
        | [] => qnaLoop shs vq room (shuffleOutcome shs shIdx vq) 0 (shIdx + 1) fuel
      | none => qnaLoop shs vq room (shuffleOutcome shs shIdx vq) 0 (shIdx + 1) fuel
    | none => qnaLoop shs vq room (shuffleOutcome shs shIdx vq) 0 (shIdx + 1) fuel

/-- The `socket.on('debate-qna-next')` handler on a found room (server.js
lines 474-518): only debaters may advance, only in the `qna` phase; with
no pending questions the current question is cleared; otherwise, when the
shuffled order is absent or exhausted it is reshuffled and the cursor
reset, and the attempt loop draws the next question.  `shs` lists the
outcomes of the `shuffle` calls this run performs. -/
def qnaNext (shs : List (List String)) (senderId : String) (room : DebateRoom) :
    DebateRoom :=
  if room.phase ≠ DebatePhase.qna then room
  else if ¬ isDebater senderId room then room
  else if (viewersWithQs room).isEmpty then { room with currentQuestion := none }
  else if room.qnaOrder = [] ∨ room.qnaOrder.length ≤ room.qnaIndex then
    qnaLoop shs (viewersWithQs room) room
      (shuffleOutcome shs 0 (viewersWithQs room)) 0 1 5
  else
    qnaLoop shs (viewersWithQs room) room room.qnaOrder room.qnaIndex 0 5

/-- The Middle Debate part of the `socket.on('disconnect')` handler
(server.js lines 688-726): drop the socket from `viewers` and
`questionsByViewer`, vacate its debater slot, end the debate when a
debater left mid `debate`/`qna` (stopping the timer), and delete the room
entirely (`none`) when no debater and no viewer remains. -/
def debateDisconnectCleanup (sid : String) (room : DebateRoom) : DebateRoom :=
  let r1 :=
    if (alookup room.viewers sid).isSome then
      { room with
        viewers := aerase room.viewers sid
        questionsByViewer := aerase room.questionsByViewer sid }
    else room
  let r2 := { r1 with
    debater1 := match r1.debater1 with
      | some d => if d.socketId = sid then none else some d
      | none => none
    debater2 := match r1.debater2 with
      | some d => if d.socketId = sid then none else some d
      | none => none }
  if (r2.phase = DebatePhase.debate ∨ r2.phase = DebatePhase.qna) ∧
      (r2.debater1 = none ∨ r2.debater2 = none) then
    { r2 with
      phase := DebatePhase.ended
      speaker := Speaker.both
      currentQuestion := none
      timer := false }
  else r2

/-- The room-deletion check at the end of the disconnect handler: the
cleaned-up room is deleted (`none`) when no debater and no viewer
remains. -/
def debateDisconnect (sid : String) (room : DebateRoom) : Option DebateRoom :=
  if (debateDisconnectCleanup sid room).debater1 = none ∧
      (debateDisconnectCleanup sid room).debater2 = none ∧
      (debateDisconnectCleanup sid room).viewers.isEmpty then none
  else some (debateDisconnectCleanup sid room)

/-- The operations on a debate room the phase-monotonicity claim
quantifies over.  `chat` only broadcasts and never mutates room state. -/
inductive DebateOp
  | joinOp (sid nm roleReq : String) (now : Int)
  | startOp (sid : String) (now : Int)
  | tickOp (now : Int)
  | qnaNextOp (sid : String) (shs : List (List String))
  | chatOp (sid txt : String)
  | questionOp (sid : String) (debateName : Option String) (txt : String)
  | disconnectOp (sid : String)

/-- Apply one debate operation; `none` means the room was deleted. -/
def applyDebateOp : DebateOp → DebateRoom → Option DebateRoom
  | DebateOp.joinOp sid nm r now, room => some (debateJoin sid nm r now room).1
  | DebateOp.startOp sid now, room => some (debateStart sid now room)
  | DebateOp.tickOp now, room => some (debateTick now room)
  | DebateOp.qnaNextOp sid shs, room => some (qnaNext shs sid room)
  | DebateOp.chatOp _ _, room => some room
  | DebateOp.questionOp sid dn txt, room => some (debateQuestion sid dn txt room)
  | DebateOp.disconnectOp sid, room => debateDisconnect sid room

/-- Apply a sequence of debate operations, first to last. -/
def applyDebateOps (ops : List DebateOp) (room : DebateRoom) : Option DebateRoom :=
  ops.foldl (fun acc op => acc.bind (applyDebateOp op)) (some room)

/-- Position of a phase along `lobby → debate → qna → ended`. -/
def phaseRank : DebatePhase → Nat
  | DebatePhase.lobby => 0
  | DebatePhase.debate => 1
  | DebatePhase.qna => 2
  | DebatePhase.ended => 3

/-! ### Predicates and scenario states used by the theorems -/

/-- The queue-membership invariant: every connection holds at most one
queue entry across the four waiting queues. -/
def QueueInv (st : Store) : Prop :=
  ∀ sid, queueCount sid st.queues ≤ 1

/-- Well-behavedness of a single operation: a `findMatch` request is only
issued by a connection that is not currently waiting in any queue. -/
def goodOpB : MMOp → Store → Bool
  | MMOp.findMatchOp sid _ _ _ _, st => decide (queueCount sid st.queues = 0)
  | _, _ => true

/-- Well-behavedness of an operation sequence, checked state by state. -/
def goodSeqB : List MMOp → Store → Bool
  | [], _ => true
  | op :: ops, st => goodOpB op st && goodSeqB ops (applyMMOp op st)

/-- The viewer id of the currently selected question (empty string when no
question is selected). -/
def drawOf (r : DebateRoom) : String :=
  (r.currentQuestion.map (fun cq => cq.fromViewerId)).getD ""

/-- A debate room in the `qna` phase with three viewers `a`, `b`, `c`
holding question entries `ea`, `eb`, `ec`, an unused shuffled order, and
two seated debaters. -/
def qnaScenarioRoom (a b c : String) (ea eb ec : QVEntry)
    (d dn e2 en2 : String) : DebateRoom :=
  { code := "QNAROOM"
    createdAt := 0
    phase := DebatePhase.qna
    segmentsTotal := 6
    segmentIndex := 5
    speaker := Speaker.both
    segmentEndsAt := none
    qnaEndsAt := some 600000
    debater1 := some ⟨d, dn⟩
    debater2 := some ⟨e2, en2⟩
    viewers := [(a, ⟨ea.name, 0⟩), (b, ⟨eb.name, 0⟩), (c, ⟨ec.name, 0⟩)]
    questionsByViewer := [(a, ea), (b, eb), (c, ec)]
    currentQuestion := none
    qnaOrder := []
    qnaIndex := 0
    timer := true }

/-- The qna scenario room with its mutable Q&A fields replaced: reached
from `qnaScenarioRoom` after some `qna-next` draws. -/
def qnaScenarioMid (a b c : String) (ea eb ec : QVEntry)
    (d dn e2 en2 : String) (qbv : List (String × QVEntry))
    (cq : Option CurrentQuestion) (ord : List String) (idx : Nat) : DebateRoom :=
  { qnaScenarioRoom a b c ea eb ec d dn e2 en2 with
    questionsByViewer := qbv
    currentQuestion := cq
    qnaOrder := ord
    qnaIndex := idx }

/-- Six consecutive `qna-next` calls by `sender`, the first call of each
pass of three supplied with one shuffle outcome (`s1`, then `s2`); returns
the room state after each call. -/
def qnaSixCalls (room : DebateRoom) (sender : String) (s1 s2 : List String) :
    List DebateRoom :=
  let r1 := qnaNext [s1] sender room
  let r2 := qnaNext [] sender r1
  let r3 := qnaNext [] sender r2
  let r4 := qnaNext [s2] sender r3
  let r5 := qnaNext [] sender r4
  let r6 := qnaNext [] sender r5
  [r1, r2, r3, r4, r5, r6]

/-- A lobby room with both debater slots taken, built through the
embedded `debate-create` and `debate-join` handlers. -/
def lobbyBothRoom : DebateRoom :=
  (debateJoin "D2" "Bob" "debater" 0
    (debateJoin "D1" "Alice" "debater" 0
      (debateCreate "ROOMB" 0 (JSNumInput.num 6))).1).1

/-- A store holding one active video room with members `B` and `A`
(`B` the matching caller, `A` the queued peer), as produced by two
`findMatch` calls. -/
def inRoomStore : Store :=
  (handleFindMatch "B" Mode.video "bob" 1 "room1"
    (handleFindMatch "A" Mode.video "alice" 0 "roomX" emptyStore).1).1

/-! ### Helper lemmas about queues -/

theorem extractFirst_perm (p : WQEntry → Bool) (l : List WQEntry)
    (x : WQEntry) (ys : List WQEntry) (h : extractFirst p l = some (x, ys)) :
    l.Perm (x :: ys) := by
  induction l generalizing x ys with
  | nil => simp [extractFirst] at h
  | cons a as ih =>
    rw [extractFirst] at h
    by_cases hp : p a
    · rw [if_pos hp] at h
      obtain ⟨rfl, rfl⟩ : a = x ∧ as = ys := by
        constructor <;> [exact congrArg Prod.fst (Option.some.inj h);
          exact congrArg Prod.snd (Option.some.inj h)]
      exact List.Perm.refl _
    · rw [if_neg hp] at h
      rcases he : extractFirst p as with _ | ⟨y, ys2⟩
      · rw [he] at h; exact absurd h (by simp)
      · rw [he] at h
        obtain ⟨rfl, rfl⟩ : y = x ∧ a :: ys2 = ys := by
          constructor <;> [exact congrArg Prod.fst (Option.some.inj h);
            exact congrArg Prod.snd (Option.some.inj h)]
        exact (List.Perm.cons a (ih _ ys2 he)).trans (List.Perm.swap _ a ys2)

theorem extractFirst_filter_length_le (p pred : WQEntry → Bool)
    (l : List WQEntry) (x : WQEntry) (ys : List WQEntry)
    (h : extractFirst p l = some (x, ys)) :
    (ys.filter pred).length ≤ (l.filter pred).length := by
  have hp := (extractFirst_perm p l x ys h).filter pred
  rw [hp.length_eq, List.filter_cons]
  by_cases hx : pred x <;> simp [hx]

theorem findMatch_queueCount_le (sid : String) (mode : Mode) (qs : Queues)
    (mf : MatchFound) (qs2 : Queues)
    (h : findMatch sid mode qs = some (mf, qs2)) (v : String) :
    queueCount v qs2 ≤ queueCount v qs := by
  cases mode <;> simp only [findMatch] at h <;> split at h
  case video.h_1 u rest he | audio.h_1 u rest he | text.h_1 u rest he =>
    obtain rfl : _ = qs2 := congrArg Prod.snd (Option.some.inj h)
    have := extractFirst_filter_length_le _ (fun u => decide (u.socketId = v)) _ _ _ he
    simp only [queueCount, Queues.set, Queues.get] at *
    omega
  case video.h_2 | audio.h_2 | text.h_2 =>
    split at h
    case h_1 u rest he =>
      obtain rfl : _ = qs2 := congrArg Prod.snd (Option.some.inj h)
      have := extractFirst_filter_length_le _ (fun u => decide (u.socketId = v)) _ _ _ he
      simp only [queueCount] at *
      omega
    case h_2 => exact absurd h (by simp)
  case any.h_1 u rest he =>
    obtain rfl : _ = qs2 := congrArg Prod.snd (Option.some.inj h)
    have := extractFirst_filter_length_le _ (fun u => decide (u.socketId = v)) _ _ _ he
    simp only [queueCount] at *
    omega
  case any.h_2 =>
    split at h
    case h_1 u rest he =>
      obtain rfl : _ = qs2 := congrArg Prod.snd (Option.some.inj h)
      have := extractFirst_filter_length_le _ (fun u => decide (u.socketId = v)) _ _ _ he
      simp only [queueCount] at *
      omega
    case h_2 =>
      split at h
      case h_1 u rest he =>
        obtain rfl : _ = qs2 := congrArg Prod.snd (Option.some.inj h)
        have := extractFirst_filter_length_le _ (fun u => decide (u.socketId = v)) _ _ _ he
        simp only [queueCount] at *
        omega
      case h_2 =>
        split at h
        case h_1 u rest he =>
          obtain rfl : _ = qs2 := congrArg Prod.snd (Option.some.inj h)
          have := extractFirst_filter_length_le _ (fun u => decide (u.socketId = v)) _ _ _ he
          simp only [queueCount] at *
          omega
        case h_2 => exact absurd h (by simp)

theorem removeFromQueues_count_le (sid : String) (qs : Queues) (v : String) :
    queueCount v (removeFromQueues sid qs) ≤ queueCount v qs := by
  simp only [removeFromQueues]
  split
  case h_1 u rest he =>
    have := extractFirst_filter_length_le _ (fun u => decide (u.socketId = v)) _ _ _ he
    simp only [queueCount]; omega
  case h_2 =>
    split
    case h_1 u rest he =>
      have := extractFirst_filter_length_le _ (fun u => decide (u.socketId = v)) _ _ _ he
      simp only [queueCount]; omega
    case h_2 =>
      split
      case h_1 u rest he =>
        have := extractFirst_filter_length_le _ (fun u => decide (u.socketId = v)) _ _ _ he
        simp only [queueCount]; omega
      case h_2 =>
        split
        case h_1 u rest he =>
          have := extractFirst_filter_length_le _ (fun u => decide (u.socketId = v)) _ _ _ he
          simp only [queueCount]; omega
        case h_2 => exact le_refl _

theorem pushQueue_count (qs : Queues) (mode : Mode) (e : WQEntry) (v : String) :
    queueCount v (pushQueue qs mode e) =
      queueCount v qs + (if e.socketId = v then 1 else 0) := by
  cases mode <;>
    simp only [pushQueue, Queues.get, Queues.set, queueCount, List.filter_append] <;>
    by_cases hv : e.socketId = v <;> simp [hv] <;> omega

theorem handleDisconnect_queues (sid : String) (st : Store) :
    (handleDisconnect sid st).queues = removeFromQueues sid st.queues := by
  simp only [handleDisconnect]
  split
  case h_1 session _ =>
    split
    case h_1 => rfl
    case h_2 => rfl
  case h_2 => rfl

/-! ### Claim theorems (speaking rights and segment machine) -/

/-- Claim C3: the 1:1 speaking-rights function exactly matches the fixed
table for all 4 segments and both roles: segment 0 and 3 let `user1`
speak and not `user2`, segments 1 and 2 let `user2` speak and not
`user1`; in particular `canISpeak user1 2 = false`,
`canISpeak user1 0 = true` and `canISpeak user2 3 = false`. -/
theorem claim_C3_speaking_rights_table :
    canISpeak (some Role.user1) 0 = true ∧ canISpeak (some Role.user2) 0 = false ∧
    canISpeak (some Role.user1) 1 = false ∧ canISpeak (some Role.user2) 1 = true ∧
    canISpeak (some Role.user1) 2 = false ∧ canISpeak (some Role.user2) 2 = true ∧
    canISpeak (some Role.user1) 3 = true ∧ canISpeak (some Role.user2) 3 = false := by
  decide

/-- Claim C4: segment advancement, whether by timer expiry or by skip,
increments the segment modulo 4 and resets the remaining time to the
fixed 60 second duration; advancing from segment 3 wraps to segment 0 and
increments the round, advancing from any other segment leaves the round
unchanged; a timer tick with more than one second left only decrements
the clock. -/
theorem claim_C4_segment_advancement (s : SegTimerState) :
    (handleSkip s).currentSegment = (s.currentSegment + 1) % 4 ∧
    (handleSkip s).timeRemaining = 60 ∧
    (s.currentSegment = 3 →
      (handleSkip s).currentSegment = 0 ∧ (handleSkip s).round = s.round + 1) ∧
    (s.currentSegment ≠ 3 → (handleSkip s).round = s.round) ∧
    (s.timeRemaining - 1 ≤ 0 → timerTick s = handleSkip s) ∧
    (0 < s.timeRemaining - 1 →
      timerTick s = { s with timeRemaining := s.timeRemaining - 1 }) := by
  refine ⟨by simp [handleSkip], by simp [handleSkip], ?_, ?_, ?_, ?_⟩
  · intro h3; simp [handleSkip, h3]
  · intro h3; simp [handleSkip, h3]
  · intro ht; simp only [timerTick, handleSkip, if_pos ht]
  · intro ht
    simp only [timerTick]
    rw [if_neg (by omega)]

/-- Witness for C4 at segments 3 and 1 and a tick with an expiring clock. -/
theorem claim_C4_segment_advancement_witness :
    ((handleSkip ⟨3, 2, 17⟩).currentSegment = 0 ∧ (handleSkip ⟨3, 2, 17⟩).round = 3) ∧
    (handleSkip ⟨1, 2, 17⟩).round = 2 ∧
    timerTick ⟨0, 1, 1⟩ = handleSkip ⟨0, 1, 1⟩ ∧
    timerTick ⟨0, 1, 9⟩ = { currentSegment := 0, round := 1, timeRemaining := 8 } :=
  ⟨(claim_C4_segment_advancement ⟨3, 2, 17⟩).2.2.1 rfl,
   (claim_C4_segment_advancement ⟨1, 2, 17⟩).2.2.2.1 (by decide),
   (claim_C4_segment_advancement ⟨0, 1, 1⟩).2.2.2.2.1 (by decide),
   (claim_C4_segment_advancement ⟨0, 1, 9⟩).2.2.2.2.2 (by decide)⟩

/-! ### Claim theorems (mode resolution and matchmaking scenarios) -/

/-- Claim C1, bug evidence: when connection `A` requests mode `any` and is
queued, and connection `B` then requests mode `any`, the match comes from
the `any` queue with `matchedMode = 'any'`, so the created room's
resolved mode is `'any'` — not the documented `'video'` default, and the
room mode `'any'` is reachable. -/
theorem claim_C1_bothAny_resolves_to_any :
    (handleFindMatch "A" Mode.any "alice" 0 "room1" emptyStore).2 =
      FMOutcome.waiting ∧
    (handleFindMatch "B" Mode.any "bob" 1 "room2"
        (handleFindMatch "A" Mode.any "alice" 0 "room1" emptyStore).1).2 =
      FMOutcome.matched "room2" "A" Mode.any ∧
    alookup (handleFindMatch "B" Mode.any "bob" 1 "room2"
        (handleFindMatch "A" Mode.any "alice" 0 "room1" emptyStore).1).1.activeRooms
      "room2" = some ⟨["B", "A"], Mode.any, 1⟩ ∧
    Mode.any ≠ Mode.video := by
  decide

/-- Claim C2, counterexample: in the scenario where `A` requests `video`
and is queued and `B` then requests `any`, the server assigns `user1` to
`B` (the caller that triggered the match) and `user2` to `A` (the queued
peer) — the opposite of the claimed assignment. -/
theorem claim_C2_counterexample :
    (alookup (handleFindMatch "B" Mode.any "bob" 1 "room2"
        (handleFindMatch "A" Mode.video "alice" 0 "room1" emptyStore).1).1.userSessions
      "A").map (fun s => s.userId) = some "user2" ∧
    (alookup (handleFindMatch "B" Mode.any "bob" 1 "room2"
        (handleFindMatch "A" Mode.video "alice" 0 "room1" emptyStore).1).1.userSessions
      "B").map (fun s => s.userId) = some "user1" ∧
    ("user2" : String) ≠ "user1" := by
  decide

/-- Claim C2 as amended: from empty queues, if `A` requests `video` and is
queued and `B` then requests `any`, the match resolves to mode `video`,
`B` (the matching caller) is assigned `user1` and `A` (the queued peer)
`user2`, a room `[B, A]` of mode `video` is created, and the client chat
state initializes to segment 0, round 1, 60 seconds on `matchFound`. -/
theorem claim_C2_amended (A B nmA nmB : String) (t1 t2 : Int) (r1 r2 : String)
    (hAB : A ≠ B) (cs : SegTimerState) :
    (handleFindMatch A Mode.video nmA t1 r1 emptyStore).2 = FMOutcome.waiting ∧
    (handleFindMatch B Mode.any nmB t2 r2
        (handleFindMatch A Mode.video nmA t1 r1 emptyStore).1).2 =
      FMOutcome.matched r2 A Mode.video ∧
    alookup (handleFindMatch B Mode.any nmB t2 r2
        (handleFindMatch A Mode.video nmA t1 r1 emptyStore).1).1.activeRooms r2 =
      some ⟨[B, A], Mode.video, t2⟩ ∧
    alookup (handleFindMatch B Mode.any nmB t2 r2
        (handleFindMatch A Mode.video nmA t1 r1 emptyStore).1).1.userSessions B =
      some ⟨r2, "user1", Mode.video, Mode.any, nmB⟩ ∧
    alookup (handleFindMatch B Mode.any nmB t2 r2
        (handleFindMatch A Mode.video nmA t1 r1 emptyStore).1).1.userSessions A =
      some ⟨r2, "user2", Mode.video, Mode.video, nmA⟩ ∧
    onMatchFound cs = ⟨0, 1, 60⟩ := by
  have hBA : B ≠ A := Ne.symm hAB
  refine ⟨rfl, ?_, ?_, ?_, ?_, rfl⟩ <;>
    simp [handleFindMatch, findMatch, extractFirst, emptyStore, pushQueue,
      Queues.get, Queues.set, aset, alookup, hAB, hBA]

/-- Witness for the amended C2 at concrete connections. -/
theorem claim_C2_amended_witness :
    (handleFindMatch "A" Mode.video "na" 0 "r1" emptyStore).2 = FMOutcome.waiting ∧
    (handleFindMatch "B" Mode.any "nb" 1 "r2"
        (handleFindMatch "A" Mode.video "na" 0 "r1" emptyStore).1).2 =
      FMOutcome.matched "r2" "A" Mode.video ∧
    alookup (handleFindMatch "B" Mode.any "nb" 1 "r2"
        (handleFindMatch "A" Mode.video "na" 0 "r1" emptyStore).1).1.activeRooms "r2" =
      some ⟨["B", "A"], Mode.video, 1⟩ ∧
    alookup (handleFindMatch "B" Mode.any "nb" 1 "r2"
        (handleFindMatch "A" Mode.video "na" 0 "r1" emptyStore).1).1.userSessions "B" =
      some ⟨"r2", "user1", Mode.video, Mode.any, "nb"⟩ ∧
    alookup (handleFindMatch "B" Mode.any "nb" 1 "r2"
        (handleFindMatch "A" Mode.video "na" 0 "r1" emptyStore).1).1.userSessions "A" =
      some ⟨"r2", "user2", Mode.video, Mode.video, "na"⟩ ∧
    onMatchFound ⟨2, 7, 13⟩ = ⟨0, 1, 60⟩ :=
  claim_C2_amended "A" "B" "na" "nb" 0 1 "r1" "r2" (by decide) ⟨2, 7, 13⟩

/-- Claim C6, counterexample: `B` is a member of an active room in
`inRoomStore`, yet a further `findMatch` from `B` is not rejected — it
enqueues `B` and mutates the store. -/
theorem claim_C6_counterexample :
    inActiveRoomB "B" inRoomStore = true ∧
    (handleFindMatch "B" Mode.video "bob" 5 "room9" inRoomStore).2 =
      FMOutcome.waiting ∧
    queueCount "B"
      (handleFindMatch "B" Mode.video "bob" 5 "room9" inRoomStore).1.queues = 1 ∧
    (handleFindMatch "B" Mode.video "bob" 5 "room9" inRoomStore).1 ≠ inRoomStore := by
  decide

/-- Claim C6 as amended: a `findMatch` request from a connection that is
already a member of an active room is not rejected; the handler ignores
room membership entirely, and when no compatible peer is waiting it
enqueues the connection (reporting `waiting`), growing that connection's
queue entry count by one. -/
theorem claim_C6_amended (st : Store) (sid nm : String) (mode : Mode) (now : Int)
    (rid : String) (hroom : inActiveRoomB sid st = true)
    (hnomatch : findMatch sid mode st.queues = none) :
    (handleFindMatch sid mode nm now rid st).2 = FMOutcome.waiting ∧
    (handleFindMatch sid mode nm now rid st).1.queues =
      pushQueue st.queues mode ⟨sid, mode, nm, now⟩ ∧
    (handleFindMatch sid mode nm now rid st).1.activeRooms = st.activeRooms ∧
    (handleFindMatch sid mode nm now rid st).1.userSessions = st.userSessions ∧
    queueCount sid (handleFindMatch sid mode nm now rid st).1.queues =
      queueCount sid st.queues + 1 := by
  have h : handleFindMatch sid mode nm now rid st =
      (⟨pushQueue st.queues mode ⟨sid, mode, nm, now⟩, st.activeRooms,
        st.userSessions⟩, FMOutcome.waiting) := by
    simp only [handleFindMatch, hnomatch]
  rw [h]
  refine ⟨rfl, rfl, rfl, rfl, ?_⟩
  rw [pushQueue_count]
  simp

/-- Witness for the amended C6 on the concrete in-room store. -/
theorem claim_C6_amended_witness :
    (handleFindMatch "B" Mode.video "bob" 5 "room9" inRoomStore).2 =
      FMOutcome.waiting ∧
    (handleFindMatch "B" Mode.video "bob" 5 "room9" inRoomStore).1.queues =
      pushQueue inRoomStore.queues Mode.video ⟨"B", Mode.video, "bob", 5⟩ ∧
    (handleFindMatch "B" Mode.video "bob" 5 "room9" inRoomStore).1.activeRooms =
      inRoomStore.activeRooms ∧
    (handleFindMatch "B" Mode.video "bob" 5 "room9" inRoomStore).1.userSessions =
      inRoomStore.userSessions ∧
    queueCount "B"
      (handleFindMatch "B" Mode.video "bob" 5 "room9" inRoomStore).1.queues =
      queueCount "B" inRoomStore.queues + 1 :=
  claim_C6_amended inRoomStore "B" "bob" Mode.video 5 "room9" (by decide) (by decide)

/-! ### Claim C5: queue membership -/

theorem applyMMOp_preserves_inv (op : MMOp) (st : Store) (hinv : QueueInv st)
    (hgood : goodOpB op st = true) : QueueInv (applyMMOp op st) := by
  cases op with
  | findMatchOp sid mode nm now rid =>
    intro v
    simp only [applyMMOp, handleFindMatch]
    rcases hfm : findMatch sid mode st.queues with _ | ⟨mf, qs⟩
    · simp only [hfm]
      rw [pushQueue_count]
      have hzero : queueCount sid st.queues = 0 := by
        simpa [goodOpB] using hgood
      by_cases hv : sid = v
      · subst hv; rw [hzero]; simp
      · have := hinv v
        simp only [if_neg hv]
        omega
    · simp only [hfm]
      exact le_trans (findMatch_queueCount_le sid mode st.queues mf qs hfm v) (hinv v)
  | leaveQueueOp sid =>
    intro v
    exact le_trans (removeFromQueues_count_le sid st.queues v) (hinv v)
  | disconnectOp sid =>
    intro v
    simp only [applyMMOp]
    rw [handleDisconnect_queues]
    exact le_trans (removeFromQueues_count_le sid st.queues v) (hinv v)

/-- Claim C5 as amended: the `findMatch` handler never checks whether the
caller is already queued, so the invariant only holds for well-behaved
sequences; under any sequence of `findMatch`, `leaveQueue` and
`disconnect` operations in which no connection issues `findMatch` while
it still holds a queue entry, every connection id appears in at most one
of the four waiting queues (indeed holds at most one queue entry in
total). -/
theorem claim_C5_amended (ops : List MMOp) (st : Store) (hinv : QueueInv st)
    (hgood : goodSeqB ops st = true) : QueueInv (applyMMOps ops st) := by
  induction ops generalizing st with
  | nil => exact hinv
  | cons op ops ih =>
    rw [goodSeqB, Bool.and_eq_true] at hgood
    have hstep := applyMMOp_preserves_inv op st hinv hgood.1
    have : applyMMOps (op :: ops) st = applyMMOps ops (applyMMOp op st) := by
      simp [applyMMOps]
    rw [this]
    exact ih (applyMMOp op st) hstep hgood.2

/-- Claim C5, counterexample: a connection that calls `findMatch` twice
with different modes before being matched ends up with a live queue entry
in two different queues at the same time. -/
theorem claim_C5_counterexample :
    ((applyMMOps [MMOp.findMatchOp "A" Mode.video "a" 0 "r1",
        MMOp.findMatchOp "A" Mode.audio "a" 1 "r2"] emptyStore).queues.video.filter
      (fun u => decide (u.socketId = "A"))).length = 1 ∧
    ((applyMMOps [MMOp.findMatchOp "A" Mode.video "a" 0 "r1",
        MMOp.findMatchOp "A" Mode.audio "a" 1 "r2"] emptyStore).queues.audio.filter
      (fun u => decide (u.socketId = "A"))).length = 1 ∧
    queueCount "A" (applyMMOps [MMOp.findMatchOp "A" Mode.video "a" 0 "r1",
        MMOp.findMatchOp "A" Mode.audio "a" 1 "r2"] emptyStore).queues = 2 := by
  decide

/-- Witness for the amended C5: a well-behaved concrete sequence from the
empty store keeps the invariant. -/
theorem claim_C5_amended_witness :
    QueueInv (applyMMOps [MMOp.findMatchOp "A" Mode.video "a" 0 "r1",
      MMOp.leaveQueueOp "A", MMOp.findMatchOp "A" Mode.audio "a" 1 "r2",
      MMOp.disconnectOp "A"] emptyStore) :=
  claim_C5_amended _ emptyStore
    (fun sid => by simp [queueCount, emptyStore])
    (by decide)

/-! ### Helper lemmas about the debate room operations -/

theorem phaseRank_le_three (p : DebatePhase) : phaseRank p ≤ 3 := by
  cases p <;> decide

theorem phaseRank_eq_three (p : DebatePhase) (h : phaseRank p = 3) :
    p = DebatePhase.ended := by
  cases p <;> simp [phaseRank] at h ⊢

theorem qnaLoop_preserves (shs : List (List String)) (vq : List String)
    (room : DebateRoom) (order : List String) (idx shIdx fuel : Nat) :
    (qnaLoop shs vq room order idx shIdx fuel).phase = room.phase ∧
    (qnaLoop shs vq room order idx shIdx fuel).segmentsTotal = room.segmentsTotal := by
  induction fuel generalizing order idx shIdx with
  | zero => exact ⟨rfl, rfl⟩
  | succ n ih =>
    rcases hgo : order.get? idx with _ | vid
    · simp only [qnaLoop, hgo]; exact ih _ _ _
    · rcases hl : alookup room.questionsByViewer vid with _ | e
      · simp only [qnaLoop, hgo, hl]; exact ih _ _ _
      · rcases hq : e.questions with _ | ⟨q, qs⟩
        · simp only [qnaLoop, hgo, hl, hq]; exact ih _ _ _
        · simp only [qnaLoop, hgo, hl, hq]
          simp

theorem debateTickSegment_preserves (now : Int) (room : DebateRoom) :
    phaseRank room.phase ≤ phaseRank (debateTickSegment now room).phase ∧
    (debateTickSegment now room).segmentsTotal = room.segmentsTotal := by
  unfold debateTickSegment
  by_cases h1 : room.phase = DebatePhase.debate ∧ now ≥ (room.segmentEndsAt.getD 0)
  · rw [if_pos h1]
    by_cases h2 : ((room.segmentIndex : ℚ) + 1) < room.segmentsTotal
    · rw [if_pos h2]; exact ⟨le_refl _, rfl⟩
    · rw [if_neg h2]
      refine ⟨?_, rfl⟩
      rw [h1.1]
      show phaseRank DebatePhase.debate ≤ phaseRank DebatePhase.qna
      decide
  · rw [if_neg h1]; exact ⟨le_refl _, rfl⟩

theorem debateTickQna_preserves (now : Int) (room : DebateRoom) :
    phaseRank room.phase ≤ phaseRank (debateTickQna now room).phase ∧
    (debateTickQna now room).segmentsTotal = room.segmentsTotal := by
  unfold debateTickQna
  split_ifs with h1
  · exact ⟨phaseRank_le_three _, rfl⟩
  · exact ⟨le_refl _, rfl⟩

theorem debateDisconnectCleanup_preserves (sid : String) (room : DebateRoom) :
    phaseRank room.phase ≤ phaseRank (debateDisconnectCleanup sid room).phase ∧
    (debateDisconnectCleanup sid room).segmentsTotal = room.segmentsTotal := by
  unfold debateDisconnectCleanup
  dsimp only
  split_ifs with hv he
  · exact ⟨phaseRank_le_three _, rfl⟩
  · exact ⟨le_refl _, rfl⟩
  · exact ⟨phaseRank_le_three _, rfl⟩
  · exact ⟨le_refl _, rfl⟩

theorem debateJoin_preserves (sid nm rq : String) (now : Int) (room : DebateRoom) :
    ((debateJoin sid nm rq now room).1).phase = room.phase ∧
    ((debateJoin sid nm rq now room).1).segmentsTotal = room.segmentsTotal := by
  constructor <;>
  · unfold debateJoin
    dsimp only
    repeat' split
    all_goals rfl

theorem applyDebateOp_preserves (op : DebateOp) (r r2 : DebateRoom)
    (h : applyDebateOp op r = some r2) :
    phaseRank r.phase ≤ phaseRank r2.phase ∧ r2.segmentsTotal = r.segmentsTotal := by
  cases op with
  | joinOp sid nm rq now =>
    obtain rfl : (debateJoin sid nm rq now r).1 = r2 := Option.some.inj h
    have hp := debateJoin_preserves sid nm rq now r
    exact ⟨le_of_eq (congrArg phaseRank hp.1.symm), hp.2⟩
  | startOp sid now =>
    obtain rfl : debateStart sid now r = r2 := Option.some.inj h
    unfold debateStart
    split
    · exact ⟨le_refl _, rfl⟩
    · split
      · exact ⟨le_refl _, rfl⟩
      · rename_i h1 _
        rw [not_not] at h1
        refine ⟨?_, rfl⟩
        rw [h1]
        simp [phaseRank]
  | tickOp now =>
    obtain rfl : debateTick now r = r2 := Option.some.inj h
    unfold debateTick
    have hs := debateTickSegment_preserves now r
    have hq := debateTickQna_preserves now (debateTickSegment now r)
    exact ⟨le_trans hs.1 hq.1, hq.2.trans hs.2⟩
  | qnaNextOp sid shs =>
    obtain rfl : qnaNext shs sid r = r2 := Option.some.inj h
    unfold qnaNext
    split_ifs with hp hd hv ho <;>
      first
      | exact ⟨le_refl _, rfl⟩
      | (have hp2 := qnaLoop_preserves shs (viewersWithQs r) r
            (shuffleOutcome shs 0 (viewersWithQs r)) 0 1 5
         exact ⟨le_of_eq (congrArg phaseRank hp2.1.symm), hp2.2⟩)
      | (have hp2 := qnaLoop_preserves shs (viewersWithQs r) r
            r.qnaOrder r.qnaIndex 0 5
         exact ⟨le_of_eq (congrArg phaseRank hp2.1.symm), hp2.2⟩)
  | chatOp sid txt =>
    obtain rfl : r = r2 := Option.some.inj h
    exact ⟨le_refl _, rfl⟩
  | questionOp sid dn txt =>
    obtain rfl : debateQuestion sid dn txt r = r2 := Option.some.inj h
    unfold debateQuestion
    repeat' split
    all_goals exact ⟨le_refl _, rfl⟩
  | disconnectOp sid =>
    replace h : debateDisconnect sid r = some r2 := h
    unfold debateDisconnect at h
    split_ifs at h with hdel
    obtain rfl := Option.some.inj h
    have hcu := debateDisconnectCleanup_preserves sid r
    exact ⟨hcu.1, hcu.2⟩

theorem applyDebateOps_none (ops : List DebateOp) :
    applyDebateOps ops = fun room => (ops.foldl
      (fun acc op => acc.bind (applyDebateOp op)) (some room)) := rfl

theorem foldl_bind_none (ops : List DebateOp) :
    ops.foldl (fun acc op => acc.bind (applyDebateOp op)) none = none := by
  induction ops with
  | nil => rfl
  | cons op ops ih => simpa using ih

/-! ### Claim theorems (debate phase machine) -/

/-- Claim C7: under every sequence of debate operations (join, start,
timer tick, qna-next, chat, question, disconnect), the phase rank along
`lobby → debate → qna → ended` never decreases; in particular a room that
reached `ended` stays `ended` under any further operations. -/
theorem claim_C7_phase_monotonic (ops : List DebateOp) (r r2 : DebateRoom)
    (h : applyDebateOps ops r = some r2) :
    phaseRank r.phase ≤ phaseRank r2.phase ∧
    (r.phase = DebatePhase.ended → r2.phase = DebatePhase.ended) := by
  have hmono : phaseRank r.phase ≤ phaseRank r2.phase := by
    induction ops generalizing r with
    | nil =>
      obtain rfl : r = r2 := Option.some.inj h
      exact le_refl _
    | cons op ops ih =>
      rcases hstep : applyDebateOp op r with _ | r1
      · exfalso
        have : applyDebateOps (op :: ops) r =
            ops.foldl (fun acc o => acc.bind (applyDebateOp o)) none := by
          simp [applyDebateOps, hstep]
        rw [this, foldl_bind_none] at h
        exact absurd h (by simp)
      · have hrest : applyDebateOps ops r1 = some r2 := by
          have : applyDebateOps (op :: ops) r = applyDebateOps ops r1 := by
            simp [applyDebateOps, hstep]
          rw [← this]; exact h
        exact le_trans (applyDebateOp_preserves op r r1 hstep).1 (ih r1 hrest)
  refine ⟨hmono, fun hend => ?_⟩
  apply phaseRank_eq_three
  rw [hend] at hmono
  exact le_antisymm (phaseRank_le_three _) hmono

/-- Witness for C7: starting the full lobby room raises the rank from
`lobby` to `debate`. -/
theorem claim_C7_phase_monotonic_witness :
    phaseRank lobbyBothRoom.phase ≤ phaseRank (debateStart "D1" 5 lobbyBothRoom).phase ∧
    (lobbyBothRoom.phase = DebatePhase.ended →
      (debateStart "D1" 5 lobbyBothRoom).phase = DebatePhase.ended) :=
  claim_C7_phase_monotonic [DebateOp.startOp "D1" 5] lobbyBothRoom
    (debateStart "D1" 5 lobbyBothRoom) rfl

/-- Claim C8, counterexample: on a lobby room with both debater slots
filled, a `debate-start` request from a connection that is not one of the
two debaters is not rejected — it mutates the room into the `debate`
phase, because the handler never inspects the sender. -/
theorem claim_C8_counterexample :
    lobbyBothRoom.phase = DebatePhase.lobby ∧
    isDebater "V9" lobbyBothRoom = false ∧
    (debateStart "V9" 5 lobbyBothRoom).phase = DebatePhase.debate ∧
    debateStart "V9" 5 lobbyBothRoom ≠ lobbyBothRoom := by
  decide

/-- Claim C8 as amended: the `debate` phase is entered from `lobby`
exactly when both debater slots are filled and a start request arrives
from any connection (the sender's identity is not checked); a start
request outside the lobby phase or with an unfilled slot is rejected with
no state mutation. -/
theorem claim_C8_amended (sid : String) (now : Int) (room : DebateRoom) :
    (room.phase ≠ DebatePhase.lobby → debateStart sid now room = room) ∧
    (room.debater1 = none ∨ room.debater2 = none →
      debateStart sid now room = room) ∧
    (room.phase = DebatePhase.lobby → room.debater1 ≠ none → room.debater2 ≠ none →
      (debateStart sid now room).phase = DebatePhase.debate ∧
      (debateStart sid now room).segmentIndex = 0 ∧
      (debateStart sid now room).speaker = Speaker.debater1) := by
  refine ⟨fun h1 => ?_, fun h2 => ?_, fun hl hd1 hd2 => ?_⟩
  · unfold debateStart
    rw [if_pos h1]
  · unfold debateStart
    by_cases h1 : room.phase ≠ DebatePhase.lobby
    · rw [if_pos h1]
    · rw [if_neg h1, if_pos h2]
  · unfold debateStart
    rw [if_neg (by simp [hl]), if_neg (not_or.mpr ⟨hd1, hd2⟩)]
    exact ⟨rfl, rfl, rfl⟩

/-- Witness for the amended C8 on the concrete full lobby room and an
ended room. -/
theorem claim_C8_amended_witness :
    ((debateStart "D1" 5 lobbyBothRoom).phase = DebatePhase.debate ∧
      (debateStart "D1" 5 lobbyBothRoom).segmentIndex = 0 ∧
      (debateStart "D1" 5 lobbyBothRoom).speaker = Speaker.debater1) ∧
    debateStart "D1" 5 (debateCreate "ROOMC" 0 (JSNumInput.num 6)) =
      debateCreate "ROOMC" 0 (JSNumInput.num 6) :=
  ⟨(claim_C8_amended "D1" 5 lobbyBothRoom).2.2 (by decide) (by decide) (by decide),
   (claim_C8_amended "D1" 5 (debateCreate "ROOMC" 0 (JSNumInput.num 6))).2.1
     (by decide)⟩

/-- Claim C10: every `debate-create` request yields a room whose
`segmentsTotal` is clamped into `[2, 12]`; a missing/non-numeric or zero
`segmentsTotal` yields the default 6; and no debate operation ever
changes `segmentsTotal`, so no reachable room leaves `[2, 12]`. -/
theorem claim_C10_segments_clamped (code : String) (now : Int) (x : JSNumInput) :
    2 ≤ (debateCreate code now x).segmentsTotal ∧
    (debateCreate code now x).segmentsTotal ≤ 12 ∧
    (debateCreate code now JSNumInput.nonNumeric).segmentsTotal = 6 ∧
    (debateCreate code now (JSNumInput.num 0)).segmentsTotal = 6 ∧
    (∀ op r r2, applyDebateOp op r = some r2 →
      r2.segmentsTotal = r.segmentsTotal) := by
  refine ⟨?_, ?_, by norm_num [debateCreate, toSafeSegments], by
    norm_num [debateCreate, toSafeSegments], fun op r r2 h =>
    (applyDebateOp_preserves op r r2 h).2⟩
  · exact le_max_left 2 _
  · exact max_le (by norm_num) (min_le_left 12 _)

/-- Witness for C10: an out-of-range request is clamped and a join leaves
the total unchanged. -/
theorem claim_C10_segments_clamped_witness :
    2 ≤ (debateCreate "ROOMD" 0 (JSNumInput.num 99)).segmentsTotal ∧
    (debateCreate "ROOMD" 0 (JSNumInput.num 99)).segmentsTotal ≤ 12 ∧
    (debateCreate "ROOMD" 0 JSNumInput.nonNumeric).segmentsTotal = 6 ∧
    (debateCreate "ROOMD" 0 (JSNumInput.num 0)).segmentsTotal = 6 ∧
    (∀ op r r2, applyDebateOp op r = some r2 →
      r2.segmentsTotal = r.segmentsTotal) :=
  claim_C10_segments_clamped "ROOMD" 0 (JSNumInput.num 99)

/-! ### Helper lemmas for the Q&A fairness claim -/

theorem alookup_mem {α : Type} (entries : List (String × α)) (key : String)
    (val : α) (hfound : alookup entries key = some val) :
    (key, val) ∈ entries := by
  induction entries with
  | nil => simp [alookup] at hfound
  | cons p rest ih =>
    obtain ⟨k2, v2⟩ := p
    rw [alookup] at hfound
    by_cases hk : k2 = key
    · rw [if_pos hk] at hfound
      obtain rfl := Option.some.inj hfound
      subst hk
      exact List.mem_cons_self _ _
    · rw [if_neg hk] at hfound
      exact List.mem_cons_of_mem _ (ih hfound)

theorem alookup_popQuestion_other (l : List (String × QVEntry)) (v w : String)
    (hvw : v ≠ w) : alookup (popQuestion l v) w = alookup l w := by
  induction l with
  | nil => rfl
  | cons p rest ih =>
    obtain ⟨k, e⟩ := p
    rw [popQuestion]
    by_cases hk : k = v
    · rw [if_pos hk]
      subst hk
      simp [alookup, hvw]
    · rw [if_neg hk]
      by_cases hw : k = w <;> simp [alookup, hw, ih]

theorem alookup_popQuestion_self (l : List (String × QVEntry)) (v : String)
    (e : QVEntry) (h : alookup l v = some e) :
    alookup (popQuestion l v) v = some ⟨e.name, e.questions.tail⟩ := by
  induction l with
  | nil => simp [alookup] at h
  | cons p rest ih =>
    obtain ⟨k, w⟩ := p
    rw [alookup] at h
    by_cases hk : k = v
    · rw [if_pos hk] at h
      obtain rfl := Option.some.inj h
      rw [popQuestion, if_pos hk, alookup, if_pos hk]
    · rw [if_neg hk] at h
      rw [popQuestion, if_neg hk, alookup, if_neg hk]
      exact ih h

theorem viewersWithQs_ne_empty (room : DebateRoom) (v : String) (e : QVEntry)
    (hmem : (v, e) ∈ room.questionsByViewer) (hne : e.questions ≠ []) :
    (viewersWithQs room).isEmpty = false := by
  have hv : v ∈ viewersWithQs room := by
    unfold viewersWithQs
    refine List.mem_map.mpr ⟨(v, e), List.mem_filter.mpr ⟨hmem, ?_⟩, rfl⟩
    rcases hq : e.questions with _ | ⟨q, qs⟩
    · exact absurd hq hne
    · simp [hq]
  rcases hl : viewersWithQs room with _ | ⟨w, ws⟩
  · rw [hl] at hv; simp at hv
  · rfl

theorem perm_pair_cases {α : Type} {x y b c : α} (h : ([x, y] : List α).Perm [b, c]) :
    (x = b ∧ y = c) ∨ (x = c ∧ y = b) := by
  have hx : x ∈ ([b, c] : List α) := h.subset (by simp)
  simp only [List.mem_cons, List.not_mem_nil, or_false] at hx
  rcases hx with hxb | hxc
  · left
    refine ⟨hxb, ?_⟩
    rw [hxb] at h
    have h3 := List.perm_singleton.mp h.cons_inv
    simpa using h3
  · right
    refine ⟨hxc, ?_⟩
    rw [hxc] at h
    have hswap : ([b, c] : List α).Perm [c, b] := List.Perm.swap c b []
    have h3 := List.perm_singleton.mp ((h.trans hswap).cons_inv)
    simpa using h3

theorem perm3_cases {α : Type} {x y z a b c : α}
    (h : ([x, y, z] : List α).Perm [a, b, c]) :
    (x = a ∧ y = b ∧ z = c) ∨ (x = a ∧ y = c ∧ z = b) ∨
    (x = b ∧ y = a ∧ z = c) ∨ (x = b ∧ y = c ∧ z = a) ∨
    (x = c ∧ y = a ∧ z = b) ∨ (x = c ∧ y = b ∧ z = a) := by
  have hx : x ∈ ([a, b, c] : List α) := h.subset (by simp)
  simp only [List.mem_cons, List.not_mem_nil, or_false] at hx
  rcases hx with hxa | hxb | hxc
  · rw [hxa] at h
    rcases perm_pair_cases h.cons_inv with ⟨h1, h2⟩ | ⟨h1, h2⟩
    · exact Or.inl ⟨hxa, h1, h2⟩
    · exact Or.inr (Or.inl ⟨hxa, h1, h2⟩)
  · rw [hxb] at h
    have hswap : ([a, b, c] : List α).Perm [b, a, c] := List.Perm.swap b a [c]
    rcases perm_pair_cases ((h.trans hswap).cons_inv) with ⟨h1, h2⟩ | ⟨h1, h2⟩
    · exact Or.inr (Or.inr (Or.inl ⟨hxb, h1, h2⟩))
    · exact Or.inr (Or.inr (Or.inr (Or.inl ⟨hxb, h1, h2⟩)))
  · rw [hxc] at h
    have hswap : ([a, b, c] : List α).Perm [c, a, b] :=
      (List.Perm.cons a (List.Perm.swap c b [])).trans (List.Perm.swap c a [b])
    rcases perm_pair_cases ((h.trans hswap).cons_inv) with ⟨h1, h2⟩ | ⟨h1, h2⟩
    · exact Or.inr (Or.inr (Or.inr (Or.inr (Or.inl ⟨hxc, h1, h2⟩))))
    · exact Or.inr (Or.inr (Or.inr (Or.inr (Or.inr ⟨hxc, h1, h2⟩))))

theorem popQuestion_three (a b c x y z : String) (ea eb ec : QVEntry)
    (dab : a ≠ b) (dac : a ≠ c) (dbc : b ≠ c)
    (h : ([x, y, z] : List String).Perm [a, b, c]) :
    popQuestion (popQuestion (popQuestion [(a, ea), (b, eb), (c, ec)] x) y) z =
      [(a, ⟨ea.name, ea.questions.tail⟩), (b, ⟨eb.name, eb.questions.tail⟩),
        (c, ⟨ec.name, ec.questions.tail⟩)] := by
  rcases perm3_cases h with h6 | h6 | h6 | h6 | h6 | h6 <;>
    obtain ⟨rfl, rfl, rfl⟩ := h6 <;>
    simp [popQuestion, dab, dac, dbc, Ne.symm dab, Ne.symm dac, Ne.symm dbc]

theorem qnaNext_fresh (shs : List (List String)) (sid : String)
    (room : DebateRoom) (v : String) (tl : List String) (e : QVEntry)
    (q : String) (qtl : List String)
    (hphase : room.phase = DebatePhase.qna)
    (hdeb : isDebater sid room = true)
    (hvq : (viewersWithQs room).isEmpty = false)
    (hord : room.qnaOrder = [] ∨ room.qnaOrder.length ≤ room.qnaIndex)
    (hs : shuffleOutcome shs 0 (viewersWithQs room) = v :: tl)
    (he : alookup room.questionsByViewer v = some e)
    (hq : e.questions = q :: qtl) :
    qnaNext shs sid room =
      { room with
        questionsByViewer := popQuestion room.questionsByViewer v
        qnaOrder := v :: tl
        qnaIndex := 1
        currentQuestion := some ⟨v, nameOrViewer e.name, q⟩ } := by
  unfold qnaNext
  rw [if_neg (by simp [hphase]), if_neg (by simp [hdeb]),
    if_neg (by simp [hvq]), if_pos hord, hs]
  show qnaLoop shs (viewersWithQs room) room (v :: tl) 0 1 (Nat.succ 4) = _
  simp only [qnaLoop, List.get?, he, hq]

theorem qnaNext_next (shs : List (List String)) (sid : String)
    (room : DebateRoom) (v : String) (e : QVEntry) (q : String)
    (qtl : List String)
    (hphase : room.phase = DebatePhase.qna)
    (hdeb : isDebater sid room = true)
    (hvq : (viewersWithQs room).isEmpty = false)
    (hget : room.qnaOrder.get? room.qnaIndex = some v)
    (he : alookup room.questionsByViewer v = some e)
    (hq : e.questions = q :: qtl) :
    qnaNext shs sid room =
      { room with
        questionsByViewer := popQuestion room.questionsByViewer v
        qnaIndex := room.qnaIndex + 1
        currentQuestion := some ⟨v, nameOrViewer e.name, q⟩ } := by
  have hne : room.qnaOrder ≠ [] := by
    intro h0
    rw [h0] at hget
    simp [List.get?] at hget
  have hlt : room.qnaIndex < room.qnaOrder.length := by
    by_contra hge
    rw [List.get?_eq_none.mpr (by omega)] at hget
    exact absurd hget (by simp)
  unfold qnaNext
  rw [if_neg (by simp [hphase]), if_neg (by simp [hdeb]),
    if_neg (by simp [hvq]), if_neg (by rw [not_or]; exact ⟨hne, by omega⟩)]
  show qnaLoop shs (viewersWithQs room) room room.qnaOrder room.qnaIndex 0
    (Nat.succ 4) = _
  simp only [qnaLoop, hget, he, hq]

/-- Claim C9: Q&A selection is a round-robin over a shuffled viewer
order.  In the qna phase with three distinct viewers each holding at
least two pending questions, for any outcomes of the two shuffles, six
consecutive `qna-next` calls by a debater draw a permutation of the three
viewers in calls 1-3 and again in calls 4-6, so every viewer is drawn
exactly twice — each viewer is touched at least once before any viewer is
drawn a third time. -/
theorem claim_C9_qna_fairness (a b c : String) (ea eb ec : QVEntry)
    (d dn e2 en2 : String) (s1 s2 : List String)
    (dab : a ≠ b) (dac : a ≠ c) (dbc : b ≠ c)
    (hea : 2 ≤ ea.questions.length) (heb : 2 ≤ eb.questions.length)
    (hec : 2 ≤ ec.questions.length)
    (h1 : s1.Perm (viewersWithQs (qnaScenarioRoom a b c ea eb ec d dn e2 en2)))
    (h2 : s2.Perm (viewersWithQs (qnaNext [] d (qnaNext [] d (qnaNext [s1] d
      (qnaScenarioRoom a b c ea eb ec d dn e2 en2)))))) :
    (((qnaSixCalls (qnaScenarioRoom a b c ea eb ec d dn e2 en2) d s1 s2).map
      drawOf).take 3).Perm [a, b, c] ∧
    (((qnaSixCalls (qnaScenarioRoom a b c ea eb ec d dn e2 en2) d s1 s2).map
      drawOf).drop 3).Perm [a, b, c] ∧
    ((qnaSixCalls (qnaScenarioRoom a b c ea eb ec d dn e2 en2) d s1 s2).map
      drawOf).count a = 2 ∧
    ((qnaSixCalls (qnaScenarioRoom a b c ea eb ec d dn e2 en2) d s1 s2).map
      drawOf).count b = 2 ∧
    ((qnaSixCalls (qnaScenarioRoom a b c ea eb ec d dn e2 en2) d s1 s2).map
      drawOf).count c = 2 := by
  obtain ⟨pa1, pa2, pas, hqa⟩ : ∃ u v w, ea.questions = u :: v :: w := by
    rcases hc : ea.questions with _ | ⟨u, _ | ⟨v, w⟩⟩
    · rw [hc] at hea; simp at hea
    · rw [hc] at hea; simp at hea
    · exact ⟨u, v, w, rfl⟩
  obtain ⟨pb1, pb2, pbs, hqb⟩ : ∃ u v w, eb.questions = u :: v :: w := by
    rcases hc : eb.questions with _ | ⟨u, _ | ⟨v, w⟩⟩
    · rw [hc] at heb; simp at heb
    · rw [hc] at heb; simp at heb
    · exact ⟨u, v, w, rfl⟩
  obtain ⟨pc1, pc2, pcs, hqc⟩ : ∃ u v w, ec.questions = u :: v :: w := by
    rcases hc : ec.questions with _ | ⟨u, _ | ⟨v, w⟩⟩
    · rw [hc] at hec; simp at hec
    · rw [hc] at hec; simp at hec
    · exact ⟨u, v, w, rfl⟩
  have hvq0 : viewersWithQs (qnaScenarioRoom a b c ea eb ec d dn e2 en2) =
      [a, b, c] := by
    simp [viewersWithQs, qnaScenarioRoom, hqa, hqb, hqc]
  rw [hvq0] at h1
  have hlen1 := h1.length_eq
  obtain ⟨x, y, z, hs1⟩ : ∃ u v w, s1 = [u, v, w] := by
    rcases s1 with _ | ⟨u, _ | ⟨v, _ | ⟨w, _ | ⟨t, ttl⟩⟩⟩⟩
    · simp at hlen1
    · simp at hlen1
    · simp at hlen1
    · exact ⟨_, _, _, rfl⟩
    · simp at hlen1
  subst hs1
  have hnd1 : ([x, y, z] : List String).Nodup :=
    (h1.nodup_iff).mpr (by simp [dab, dac, dbc])
  obtain ⟨hxy, hxz, hyz⟩ : x ≠ y ∧ x ≠ z ∧ y ≠ z := by
    simp [List.nodup_cons] at hnd1
    exact ⟨hnd1.1.1, hnd1.1.2, hnd1.2⟩
  have hxm : x ∈ ([a, b, c] : List String) := h1.subset (by simp)
  have hym : y ∈ ([a, b, c] : List String) := h1.subset (by simp)
  have hzm : z ∈ ([a, b, c] : List String) := h1.subset (by simp)
  have lookup0 : ∀ v, v ∈ ([a, b, c] : List String) →
      ∃ e q qtl, alookup [(a, ea), (b, eb), (c, ec)] v = some e ∧
        e.questions = q :: qtl ∧ qtl ≠ [] := by
    intro v hv
    simp only [List.mem_cons, List.not_mem_nil, or_false] at hv
    rcases hv with hva | hvb | hvc
    · exact ⟨ea, pa1, pa2 :: pas, by simp [alookup, hva], hqa, by simp⟩
    · exact ⟨eb, pb1, pb2 :: pbs, by simp [alookup, hvb, dab], hqb, by simp⟩
    · exact ⟨ec, pc1, pc2 :: pcs, by simp [alookup, hvc, dac, dbc], hqc, by simp⟩
  obtain ⟨ex, qx, qxtl, hex, hqx, hqxtl⟩ := lookup0 x hxm
  obtain ⟨ey, qy, qytl, hey, hqy, hqytl⟩ := lookup0 y hym
  obtain ⟨ez, qz, qztl, hez, hqz, hqztl⟩ := lookup0 z hzm
  -- pass 1, call 1
  have hc1 : qnaNext [[x, y, z]] d (qnaScenarioRoom a b c ea eb ec d dn e2 en2) =
      qnaScenarioMid a b c ea eb ec d dn e2 en2
        (popQuestion [(a, ea), (b, eb), (c, ec)] x)
        (some ⟨x, nameOrViewer ex.name, qx⟩) [x, y, z] 1 := by
    have h := qnaNext_fresh [[x, y, z]] d
      (qnaScenarioRoom a b c ea eb ec d dn e2 en2) x [y, z] ex qx qxtl rfl
      (by simp [isDebater, qnaScenarioRoom]) (by rw [hvq0]; rfl) (Or.inl rfl)
      rfl hex hqx
    exact h.trans (by rfl)
  -- pass 1, call 2
  have heyp : alookup (popQuestion [(a, ea), (b, eb), (c, ec)] x) y = some ey := by
    rw [alookup_popQuestion_other _ _ _ hxy]; exact hey
  have hc2 : qnaNext [] d (qnaScenarioMid a b c ea eb ec d dn e2 en2
        (popQuestion [(a, ea), (b, eb), (c, ec)] x)
        (some ⟨x, nameOrViewer ex.name, qx⟩) [x, y, z] 1) =
      qnaScenarioMid a b c ea eb ec d dn e2 en2
        (popQuestion (popQuestion [(a, ea), (b, eb), (c, ec)] x) y)
        (some ⟨y, nameOrViewer ey.name, qy⟩) [x, y, z] 2 := by
    have h := qnaNext_next [] d (qnaScenarioMid a b c ea eb ec d dn e2 en2
        (popQuestion [(a, ea), (b, eb), (c, ec)] x)
        (some ⟨x, nameOrViewer ex.name, qx⟩) [x, y, z] 1) y ey qy qytl rfl
      (by simp [isDebater, qnaScenarioMid, qnaScenarioRoom])
      (viewersWithQs_ne_empty _ y ey (alookup_mem _ _ _ heyp)
        (by rw [hqy]; simp))
      rfl heyp hqy
    exact h.trans (by rfl)
  -- pass 1, call 3
  have hezp : alookup (popQuestion (popQuestion [(a, ea), (b, eb), (c, ec)] x) y)
      z = some ez := by
    rw [alookup_popQuestion_other _ _ _ hyz,
      alookup_popQuestion_other _ _ _ hxz]
    exact hez
  have hpop3 : popQuestion (popQuestion (popQuestion
        [(a, ea), (b, eb), (c, ec)] x) y) z =
      [(a, ⟨ea.name, pa2 :: pas⟩), (b, ⟨eb.name, pb2 :: pbs⟩),
        (c, ⟨ec.name, pc2 :: pcs⟩)] := by
    rw [popQuestion_three a b c x y z ea eb ec dab dac dbc h1, hqa, hqb, hqc]
    rfl
  have hc3 : qnaNext [] d (qnaScenarioMid a b c ea eb ec d dn e2 en2
        (popQuestion (popQuestion [(a, ea), (b, eb), (c, ec)] x) y)
        (some ⟨y, nameOrViewer ey.name, qy⟩) [x, y, z] 2) =
      qnaScenarioMid a b c ea eb ec d dn e2 en2
        [(a, ⟨ea.name, pa2 :: pas⟩), (b, ⟨eb.name, pb2 :: pbs⟩),
          (c, ⟨ec.name, pc2 :: pcs⟩)]
        (some ⟨z, nameOrViewer ez.name, qz⟩) [x, y, z] 3 := by
    have h := qnaNext_next [] d (qnaScenarioMid a b c ea eb ec d dn e2 en2
        (popQuestion (popQuestion [(a, ea), (b, eb), (c, ec)] x) y)
        (some ⟨y, nameOrViewer ey.name, qy⟩) [x, y, z] 2) z ez qz qztl rfl
      (by simp [isDebater, qnaScenarioMid, qnaScenarioRoom])
      (viewersWithQs_ne_empty _ z ez (alookup_mem _ _ _ hezp)
        (by rw [hqz]; simp))
      rfl hezp hqz
    refine h.trans ?_
    rw [← hpop3]
    rfl
  have hvq3 : viewersWithQs (qnaScenarioMid a b c ea eb ec d dn e2 en2
      [(a, ⟨ea.name, pa2 :: pas⟩), (b, ⟨eb.name, pb2 :: pbs⟩),
        (c, ⟨ec.name, pc2 :: pcs⟩)]
      (some ⟨z, nameOrViewer ez.name, qz⟩) [x, y, z] 3) = [a, b, c] := by
    simp [viewersWithQs, qnaScenarioMid, qnaScenarioRoom]
  rw [hc1, hc2, hc3, hvq3] at h2
  have hlen2 := h2.length_eq
  obtain ⟨x2, y2, z2, hs2⟩ : ∃ u v w, s2 = [u, v, w] := by
    rcases s2 with _ | ⟨u, _ | ⟨v, _ | ⟨w, _ | ⟨t, ttl⟩⟩⟩⟩
    · simp at hlen2
    · simp at hlen2
    · simp at hlen2
    · exact ⟨_, _, _, rfl⟩
    · simp at hlen2
  subst hs2
  have hnd2 : ([x2, y2, z2] : List String).Nodup :=
    (h2.nodup_iff).mpr (by simp [dab, dac, dbc])
  obtain ⟨hxy2, hxz2, hyz2⟩ : x2 ≠ y2 ∧ x2 ≠ z2 ∧ y2 ≠ z2 := by
    simp [List.nodup_cons] at hnd2
    exact ⟨hnd2.1.1, hnd2.1.2, hnd2.2⟩
  have hxm2 : x2 ∈ ([a, b, c] : List String) := h2.subset (by simp)
  have hym2 : y2 ∈ ([a, b, c] : List String) := h2.subset (by simp)
  have hzm2 : z2 ∈ ([a, b, c] : List String) := h2.subset (by simp)
  have lookup3 : ∀ v, v ∈ ([a, b, c] : List String) →
      ∃ e q qtl, alookup [(a, (⟨ea.name, pa2 :: pas⟩ : QVEntry)),
        (b, ⟨eb.name, pb2 :: pbs⟩), (c, ⟨ec.name, pc2 :: pcs⟩)] v = some e ∧
        e.questions = q :: qtl := by
    intro v hv
    simp only [List.mem_cons, List.not_mem_nil, or_false] at hv
    rcases hv with hva | hvb | hvc
    · exact ⟨⟨ea.name, pa2 :: pas⟩, pa2, pas, by simp [alookup, hva], rfl⟩
    · exact ⟨⟨eb.name, pb2 :: pbs⟩, pb2, pbs, by simp [alookup, hvb, dab], rfl⟩
    · exact ⟨⟨ec.name, pc2 :: pcs⟩, pc2, pcs,
        by simp [alookup, hvc, dac, dbc], rfl⟩
  obtain ⟨fx, qx2, qx2tl, hfx, hqx2⟩ := lookup3 x2 hxm2
  obtain ⟨fy, qy2, qy2tl, hfy, hqy2⟩ := lookup3 y2 hym2
  obtain ⟨fz, qz2, qz2tl, hfz, hqz2⟩ := lookup3 z2 hzm2
  -- pass 2, call 4
  have hc4 : qnaNext [[x2, y2, z2]] d (qnaScenarioMid a b c ea eb ec d dn e2 en2
        [(a, ⟨ea.name, pa2 :: pas⟩), (b, ⟨eb.name, pb2 :: pbs⟩),
          (c, ⟨ec.name, pc2 :: pcs⟩)]
        (some ⟨z, nameOrViewer ez.name, qz⟩) [x, y, z] 3) =
      qnaScenarioMid a b c ea eb ec d dn e2 en2
        (popQuestion [(a, ⟨ea.name, pa2 :: pas⟩), (b, ⟨eb.name, pb2 :: pbs⟩),
          (c, ⟨ec.name, pc2 :: pcs⟩)] x2)
        (some ⟨x2, nameOrViewer fx.name, qx2⟩) [x2, y2, z2] 1 := by
    have h := qnaNext_fresh [[x2, y2, z2]] d
      (qnaScenarioMid a b c ea eb ec d dn e2 en2
        [(a, ⟨ea.name, pa2 :: pas⟩), (b, ⟨eb.name, pb2 :: pbs⟩),
          (c, ⟨ec.name, pc2 :: pcs⟩)]
        (some ⟨z, nameOrViewer ez.name, qz⟩) [x, y, z] 3)
      x2 [y2, z2] fx qx2 qx2tl rfl
      (by simp [isDebater, qnaScenarioMid, qnaScenarioRoom])
      (by rw [hvq3]; rfl) (Or.inr (le_of_eq rfl)) rfl hfx hqx2
    exact h.trans (by rfl)
  -- pass 2, call 5
  have heyp2 : alookup (popQuestion [(a, (⟨ea.name, pa2 :: pas⟩ : QVEntry)),
      (b, ⟨eb.name, pb2 :: pbs⟩), (c, ⟨ec.name, pc2 :: pcs⟩)] x2) y2 =
      some fy := by
    rw [alookup_popQuestion_other _ _ _ hxy2]; exact hfy
  have hc5 : qnaNext [] d (qnaScenarioMid a b c ea eb ec d dn e2 en2
        (popQuestion [(a, ⟨ea.name, pa2 :: pas⟩), (b, ⟨eb.name, pb2 :: pbs⟩),
          (c, ⟨ec.name, pc2 :: pcs⟩)] x2)
        (some ⟨x2, nameOrViewer fx.name, qx2⟩) [x2, y2, z2] 1) =
      qnaScenarioMid a b c ea eb ec d dn e2 en2
        (popQuestion (popQuestion [(a, ⟨ea.name, pa2 :: pas⟩),
          (b, ⟨eb.name, pb2 :: pbs⟩), (c, ⟨ec.name, pc2 :: pcs⟩)] x2) y2)
        (some ⟨y2, nameOrViewer fy.name, qy2⟩) [x2, y2, z2] 2 := by
    have h := qnaNext_next [] d (qnaScenarioMid a b c ea eb ec d dn e2 en2
        (popQuestion [(a, ⟨ea.name, pa2 :: pas⟩), (b, ⟨eb.name, pb2 :: pbs⟩),
          (c, ⟨ec.name, pc2 :: pcs⟩)] x2)
        (some ⟨x2, nameOrViewer fx.name, qx2⟩) [x2, y2, z2] 1) y2 fy qy2 qy2tl
      rfl (by simp [isDebater, qnaScenarioMid, qnaScenarioRoom])
      (viewersWithQs_ne_empty _ y2 fy (alookup_mem _ _ _ heyp2)
        (by rw [hqy2]; simp))
      rfl heyp2 hqy2
    exact h.trans (by rfl)
  -- pass 2, call 6
  have hezp2 : alookup (popQuestion (popQuestion
      [(a, (⟨ea.name, pa2 :: pas⟩ : QVEntry)), (b, ⟨eb.name, pb2 :: pbs⟩),
        (c, ⟨ec.name, pc2 :: pcs⟩)] x2) y2) z2 = some fz := by
    rw [alookup_popQuestion_other _ _ _ hyz2,
      alookup_popQuestion_other _ _ _ hxz2]
    exact hfz
  have hc6 : qnaNext [] d (qnaScenarioMid a b c ea eb ec d dn e2 en2
        (popQuestion (popQuestion [(a, ⟨ea.name, pa2 :: pas⟩),
          (b, ⟨eb.name, pb2 :: pbs⟩), (c, ⟨ec.name, pc2 :: pcs⟩)] x2) y2)
        (some ⟨y2, nameOrViewer fy.name, qy2⟩) [x2, y2, z2] 2) =
      qnaScenarioMid a b c ea eb ec d dn e2 en2
        (popQuestion (popQuestion (popQuestion [(a, ⟨ea.name, pa2 :: pas⟩),
          (b, ⟨eb.name, pb2 :: pbs⟩), (c, ⟨ec.name, pc2 :: pcs⟩)] x2) y2) z2)
        (some ⟨z2, nameOrViewer fz.name, qz2⟩) [x2, y2, z2] 3 := by
    have h := qnaNext_next [] d (qnaScenarioMid a b c ea eb ec d dn e2 en2
        (popQuestion (popQuestion [(a, ⟨ea.name, pa2 :: pas⟩),
          (b, ⟨eb.name, pb2 :: pbs⟩), (c, ⟨ec.name, pc2 :: pcs⟩)] x2) y2)
        (some ⟨y2, nameOrViewer fy.name, qy2⟩) [x2, y2, z2] 2) z2 fz qz2 qz2tl
      rfl (by simp [isDebater, qnaScenarioMid, qnaScenarioRoom])
      (viewersWithQs_ne_empty _ z2 fz (alookup_mem _ _ _ hezp2)
        (by rw [hqz2]; simp))
      rfl hezp2 hqz2
    exact h.trans (by rfl)
  -- assemble the six draws
  simp only [qnaSixCalls]
  rw [hc1, hc2, hc3, hc4, hc5, hc6]
  simp only [List.map, drawOf, qnaScenarioMid, qnaScenarioRoom, Option.map,
    Option.getD]
  have hca1 : ([x, y, z] : List String).count a = 1 := by
    rw [h1.count_eq]
    simp [List.count_cons, dab, dac, dbc, Ne.symm dab, Ne.symm dac, Ne.symm dbc]
  have hcb1 : ([x, y, z] : List String).count b = 1 := by
    rw [h1.count_eq]
    simp [List.count_cons, dab, dac, dbc, Ne.symm dab, Ne.symm dac, Ne.symm dbc]
  have hcc1 : ([x, y, z] : List String).count c = 1 := by
    rw [h1.count_eq]
    simp [List.count_cons, dab, dac, dbc, Ne.symm dab, Ne.symm dac, Ne.symm dbc]
  have hca2 : ([x2, y2, z2] : List String).count a = 1 := by
    rw [h2.count_eq]
    simp [List.count_cons, dab, dac, dbc, Ne.symm dab, Ne.symm dac, Ne.symm dbc]
  have hcb2 : ([x2, y2, z2] : List String).count b = 1 := by
    rw [h2.count_eq]
    simp [List.count_cons, dab, dac, dbc, Ne.symm dab, Ne.symm dac, Ne.symm dbc]
  have hcc2 : ([x2, y2, z2] : List String).count c = 1 := by
    rw [h2.count_eq]
    simp [List.count_cons, dab, dac, dbc, Ne.symm dab, Ne.symm dac, Ne.symm dbc]
  have happ : ([x, y, z, x2, y2, z2] : List String) =
      [x, y, z] ++ [x2, y2, z2] := rfl
  refine ⟨by simpa using h1, by simpa using h2, ?_, ?_, ?_⟩
  · rw [happ, List.count_append, hca1, hca2]
  · rw [happ, List.count_append, hcb1, hcb2]
  · rw [happ, List.count_append, hcc1, hcc2]

/-- Witness for C9 with three concrete viewers holding two questions each
and two concrete shuffle outcomes. -/
theorem claim_C9_qna_fairness_witness :
    (((qnaSixCalls (qnaScenarioRoom "va" "vb" "vc" ⟨"na", ["q1", "q2"]⟩
      ⟨"nb", ["q3", "q4"]⟩ ⟨"nc", ["q5", "q6"]⟩ "D1" "Ann" "D2" "Ben") "D1"
      ["vb", "vc", "va"] ["vc", "va", "vb"]).map drawOf).take 3).Perm
      ["va", "vb", "vc"] ∧
    (((qnaSixCalls (qnaScenarioRoom "va" "vb" "vc" ⟨"na", ["q1", "q2"]⟩
      ⟨"nb", ["q3", "q4"]⟩ ⟨"nc", ["q5", "q6"]⟩ "D1" "Ann" "D2" "Ben") "D1"
      ["vb", "vc", "va"] ["vc", "va", "vb"]).map drawOf).drop 3).Perm
      ["va", "vb", "vc"] ∧
    ((qnaSixCalls (qnaScenarioRoom "va" "vb" "vc" ⟨"na", ["q1", "q2"]⟩
      ⟨"nb", ["q3", "q4"]⟩ ⟨"nc", ["q5", "q6"]⟩ "D1" "Ann" "D2" "Ben") "D1"
      ["vb", "vc", "va"] ["vc", "va", "vb"]).map drawOf).count "va" = 2 ∧
    ((qnaSixCalls (qnaScenarioRoom "va" "vb" "vc" ⟨"na", ["q1", "q2"]⟩
      ⟨"nb", ["q3", "q4"]⟩ ⟨"nc", ["q5", "q6"]⟩ "D1" "Ann" "D2" "Ben") "D1"
      ["vb", "vc", "va"] ["vc", "va", "vb"]).map drawOf).count "vb" = 2 ∧
    ((qnaSixCalls (qnaScenarioRoom "va" "vb" "vc" ⟨"na", ["q1", "q2"]⟩
      ⟨"nb", ["q3", "q4"]⟩ ⟨"nc", ["q5", "q6"]⟩ "D1" "Ann" "D2" "Ben") "D1"
      ["vb", "vc", "va"] ["vc", "va", "vb"]).map drawOf).count "vc" = 2 :=
  claim_C9_qna_fairness "va" "vb" "vc" ⟨"na", ["q1", "q2"]⟩ ⟨"nb", ["q3", "q4"]⟩
    ⟨"nc", ["q5", "q6"]⟩ "D1" "Ann" "D2" "Ben" ["vb", "vc", "va"]
    ["vc", "va", "vb"] (by decide) (by decide) (by decide) (by decide)
    (by decide) (by decide) (by decide) (by decide)

end StructuredChat
